import Mathlib

/-!
Verification of the TypoChecker analysis-orchestration engine.

Shallow embedding of the core analysis code:
* `ChunkProcessor` (src/background/chunk-processor.ts): splitting text into
  overlapping chunks, batch dispatch with retry, result parsing and merging;
* `AIManager` (src/background/ai/ai-manager.ts): provider fail-over;
* `GeminiProvider` (src/background/ai/gemini-provider.ts): the File-API path
  with upload / poll-until-active / generate / guaranteed delete;
* `AISessionManager.isResponseComplete` (src/background/ai-session.ts): the
  streaming completion heuristic.

JavaScript strings are modelled as `List Char` (UTF-16 units; all characters
appearing here are in the BMP, so one `Char` is one unit) or Lean `String`,
JavaScript exceptions as an explicit error type, and asynchronous time as a
virtual clock advanced by the explicit `delay` calls of the source.
-/

namespace TypoChecker

/-! ## JavaScript string helpers -/

/-- Does `pat` occur at the start of `s`? (helper for substring search). -/
def startsWithList : List Char → List Char → Bool
  | _, [] => true
  | [], _ :: _ => false
  | a :: as, b :: bs => a = b && startsWithList as bs

/-- Does `pat` occur contiguously inside `s`? Models `String.prototype.includes`. -/
def hasSubList : List Char → List Char → Bool
  | s, pat =>
    if startsWithList s pat then true
    else
      match s with
      | [] => false
      | _ :: rest => hasSubList rest pat

/-- JavaScript `s.includes(pat)`. -/
def jsIncludes (s pat : String) : Bool :=
  hasSubList s.toList pat.toList

/-- JavaScript `s.endsWith(pat)`. -/
def jsEndsWith (s pat : String) : Bool :=
  startsWithList s.toList.reverse pat.toList.reverse

/-- JavaScript `s.trim()` on the whitespace characters relevant here. -/
def jsTrim (s : String) : String :=
  ⟨((s.toList.dropWhile Char.isWhitespace).reverse.dropWhile Char.isWhitespace).reverse⟩

/-- JavaScript `x || d` for an optional string `x`: `undefined` and the empty
string are falsy. -/
def jsOrStr (x : Option String) (d : String) : String :=
  match x with
  | some s => if s = "" then d else s
  | none => d

/-- JavaScript `x || d` for an optional number `x`: `undefined` and `0` are falsy. -/
def jsOrNat (x : Option Nat) (d : Nat) : Nat :=
  match x with
  | some v => if v = 0 then d else v
  | none => d

/-! ## Data model (src/shared/types/messages.ts and chunk-processor.ts)

`TypoError.severity` is typed as a string union in the source but at runtime
holds whatever string the parse produced (`e.severity || 'warning'`), so it is
modelled as `String`; likewise `type`. -/

/-- One detected finding, as built by `ChunkProcessor.parseAnalysisResult`. -/
structure TypoError where
  type : String
  severity : String
  original : String
  suggestion : String
  explanation : String
  chunkId : Nat
  position : Option (Nat × Nat) := none
deriving DecidableEq, Repr

/-- `TextChunk` from chunk-processor.ts. -/
structure TextChunk where
  id : Nat
  text : List Char
  startIndex : Nat
  endIndex : Nat
  overlap : Option (List Char) := none
deriving DecidableEq, Repr

/-- `ChunkResult` from chunk-processor.ts. `processingTime` is in virtual
milliseconds. -/
structure ChunkResult where
  chunkId : Nat
  errors : List TypoError
  tokensUsed : Option Nat := none
  processingTime : Nat
deriving DecidableEq, Repr

/-- A thrown JavaScript value: either a plain coded error object
`\x7bcode, message, details?\x7d` (as produced by `createError`) or an `Error`
instance carrying a message. -/
inductive JSError where
  | coded (code message : String) (details : Option String := none)
  | exn (message : String)
deriving DecidableEq, Repr

/-! ## Segmenter: `ChunkProcessor.splitIntoChunks` (chunk-processor.ts lines 25-88)

The source reads `AI_MODEL.MAX_CHARS_PER_CHUNK = 20000` and
`AI_MODEL.OVERLAP_CHARS = 500`; the spec's contract
`split(text, maxChunkChars, overlapChars)` exposes them as parameters, so the
embedding takes them as arguments and `splitIntoChunks` instantiates the
constants.  The `while` loop is embedded with explicit fuel: `none` means the
loop has not terminated within the given number of iterations. -/

/-- `AI_MODEL` constants (src/shared/constants.ts lines 2-8). -/
def MAX_CHARS_PER_CHUNK : Nat := 20000

/-- `AI_MODEL.OVERLAP_CHARS`. -/
def OVERLAP_CHARS : Nat := 500

/-- JavaScript `text.lastIndexOf(c, pos)`: the greatest index `i ≤ pos` with
`text[i] = c`, if any. -/
def lastIndexOf (text : List Char) (c : Char) (pos : Nat) : Option Nat :=
  ((List.range (min (pos + 1) text.length)).filter
    (fun i => text.getD i default = c)).getLast?

/-- JavaScript `text.substring(s, e)` for `s ≤ e`. -/
def substringList (text : List Char) (s e : Nat) : List Char :=
  (text.drop s).take (e - s)

/-- The `? lastX + 1 : -1` candidate of the break-point computation
(chunk-processor.ts lines 54-58). -/
def breakCandidate (text : List Char) (c : Char) (pos startIndex : Nat) : Int :=
  match lastIndexOf text c pos with
  | some i => if i > startIndex then (i : Int) + 1 else -1
  | none => -1

/-- The `endIndex` computed by one loop iteration (chunk-processor.ts lines
45-63): the hard cut at `startIndex + maxChunkSize` (clamped to the text
length), moved back to just after the right-most sentence terminator, newline
or space strictly beyond `startIndex` when the cut is not already at the end
of the text. -/
def splitEnd (maxChunkSize : Nat) (text : List Char) (startIndex : Nat) : Nat :=
  let endIndex0 := min (startIndex + maxChunkSize) text.length
  if endIndex0 < text.length then
    let breakPoint :=
      max (max (breakCandidate text '。' endIndex0 startIndex)
               (breakCandidate text '\n' endIndex0 startIndex))
          (breakCandidate text ' ' endIndex0 startIndex)
    if breakPoint > (startIndex : Int) then breakPoint.toNat else endIndex0
  else endIndex0

/-- The next `startIndex` (chunk-processor.ts lines 81-82):
`endIndex - overlapSize`, set to `endIndex` when that is negative. -/
def splitNextStart (overlapSize endIndex : Nat) : Nat :=
  if endIndex < overlapSize then endIndex else endIndex - overlapSize

/-- One iteration of the `while` loop of `splitIntoChunks`
(chunk-processor.ts lines 44-84): produces the chunk pushed by this iteration
and the next `startIndex`. -/
def splitStep (maxChunkSize overlapSize : Nat) (text : List Char)
    (startIndex chunkId : Nat) : TextChunk × Nat :=
  let endIndex := splitEnd maxChunkSize text startIndex
  let overlap : Option (List Char) :=
    if chunkId > 0 && startIndex > 0 then
      some (substringList text (startIndex - overlapSize) startIndex)
    else none
  let chunk : TextChunk :=
    { id := chunkId, text := substringList text startIndex endIndex,
      startIndex := startIndex, endIndex := endIndex, overlap := overlap }
  (chunk, splitNextStart overlapSize endIndex)

/-- The `while` loop of `splitIntoChunks` with fuel; `none` = the loop did not
exit within `fuel` iterations. -/
def splitGo (maxChunkSize overlapSize : Nat) (text : List Char) :
    Nat → Nat → Nat → List TextChunk → Option (List TextChunk)
  | 0, _, _, _ => none
  | fuel + 1, startIndex, chunkId, acc =>
    if startIndex < text.length then
      let p := splitStep maxChunkSize overlapSize text startIndex chunkId
      splitGo maxChunkSize overlapSize text fuel p.2 (chunkId + 1) (acc ++ [p.1])
    else some acc

/-- `splitIntoChunks` with the spec's parameters.  Returns `none` when the
source's loop runs longer than `fuel` iterations. -/
def splitParam (maxChunkSize overlapSize : Nat) (fuel : Nat) (text : List Char) :
    Option (List TextChunk) :=
  if text.length ≤ maxChunkSize then
    some [{ id := 0, text := text, startIndex := 0, endIndex := text.length }]
  else
    splitGo maxChunkSize overlapSize text fuel 0 0 []

/-- `ChunkProcessor.splitIntoChunks` with the configured `AI_MODEL` constants. -/
def splitIntoChunks (fuel : Nat) (text : List Char) : Option (List TextChunk) :=
  splitParam MAX_CHARS_PER_CHUNK OVERLAP_CHARS fuel text

/-- The chunks accumulated by the first `n` iterations of the loop (the prefix
of the emitted chunk sequence, defined even when the loop diverges). -/
def splitTraceGo (maxChunkSize overlapSize : Nat) (text : List Char) :
    Nat → Nat → Nat → List TextChunk → List TextChunk
  | 0, _, _, acc => acc
  | n + 1, startIndex, chunkId, acc =>
    if startIndex < text.length then
      let p := splitStep maxChunkSize overlapSize text startIndex chunkId
      splitTraceGo maxChunkSize overlapSize text n p.2 (chunkId + 1) (acc ++ [p.1])
    else acc

/-- First `n` chunks emitted by the loop of `splitIntoChunks` run with the
given parameters. -/
def splitTrace (maxChunkSize overlapSize : Nat) (text : List Char) (n : Nat) :
    List TextChunk :=
  splitTraceGo maxChunkSize overlapSize text n 0 0 []

/-! ## Response parsing: `ChunkProcessor.parseAnalysisResult` (lines 192-236)
and `fallbackParse` (lines 241-266)

`JSON.parse` and the fallback regular-expression scan are boundary operations
on raw provider strings; their *output shape* is what the dispatcher consumes,
so the provider response is modelled post-deserialization: `json errorsField`
is a response that parsed as JSON (`errorsField = some l` when `parsed.errors`
was an array `l` of objects, `none` when it was missing or not an array), and
`malformed found` is a non-JSON response together with the capture groups the
three fallback patterns matched. -/

/-- One element of the parsed `errors` array, before validation.  Fields are
`Option` because JSON objects may omit them; JavaScript truthiness makes the
empty string behave like an absent field. -/
structure RawError where
  type : Option String := none
  severity : Option String := none
  original : Option String := none
  suggestion : Option String := none
  explanation : Option String := none
deriving DecidableEq, Repr

/-- A provider response, modelled after deserialization (see section comment). -/
inductive AIOutput where
  | json (errorsField : Option (List RawError))
  | malformed (found : List String)
deriving DecidableEq, Repr

/-- The validation filter of `parseAnalysisResult` (lines 203-208):
`e.type && e.suggestion && ['typo','grammar','japanese'].includes(e.type)`. -/
def validRaw (e : RawError) : Bool :=
  match e.type, e.suggestion with
  | some t, some s =>
    decide (t ≠ "") && decide (s ≠ "") && ["typo", "grammar", "japanese"].contains t
  | _, _ => false

/-- The record constructor of `parseAnalysisResult` (lines 209-229). -/
def toTypoError (chunk : TextChunk) (e : RawError) : TypoError :=
  { type := e.type.getD ""
    severity := jsOrStr e.severity "warning"
    original := e.original.getD ""
    suggestion := e.suggestion.getD ""
    explanation := e.explanation.getD ""
    chunkId := chunk.id
    position := some (chunk.startIndex, chunk.endIndex) }

/-- `ChunkProcessor.parseAnalysisResult`: on a JSON response, validate and map
the `errors` array; on a non-JSON response, `fallbackParse` turns each regex
capture into a fixed warning record (lines 251-263). -/
def parseAnalysisResult (result : AIOutput) (chunk : TextChunk) : List TypoError :=
  match result with
  | .json none => []
  | .json (some errs) => (errs.filter validRaw).map (toTypoError chunk)
  | .malformed found =>
    found.map (fun m =>
      { type := "typo", severity := "warning", original := m,
        suggestion := "修正が必要です", explanation := "自動検出されたエラー",
        chunkId := chunk.id, position := none })

/-! ## Batch Dispatcher: `processChunkWithRetry` (lines 147-187) and
`processChunks` (lines 93-142)

The per-attempt `analyzeFunc` raced against the 30 s timeout is an oracle
`attemptFn : Nat → Except JSError AIOutput` giving the outcome of each attempt
(a timeout loss of the race is a failure outcome like any rejection), and
`dur : Nat → Nat` gives each attempt's duration on the virtual clock;
`performance.now()` differences and the `delay` calls are accumulated
explicitly. -/

/-- `CHUNK_PROCESSING` constants (src/shared/constants.ts lines 50-55). -/
def RETRY_ATTEMPTS : Nat := 2

/-- `CHUNK_PROCESSING.RETRY_DELAY` in ms. -/
def RETRY_DELAY : Nat := 1000

/-- `CHUNK_PROCESSING.BATCH_SIZE`. -/
def BATCH_SIZE : Nat := 3

/-- The attempt loop of `processChunkWithRetry` (lines 154-178): `attempt`
ranges over `0..retryAttempts`, here driven by `remaining = retryAttempts -
attempt` (the source's `attempt < RETRY_ATTEMPTS` retry condition is
`remaining > 0`); `elapsed` is the virtual time since `startTime`.  On failure
before the last attempt the source awaits `delay(RETRY_DELAY * (attempt + 1))`. -/
def retryGo (retryDelay : Nat) (chunk : TextChunk)
    (attemptFn : Nat → Except JSError AIOutput) (dur : Nat → Nat) :
    Nat → Nat → Nat → ChunkResult
  | 0, attempt, elapsed =>
    match attemptFn attempt with
    | .ok out =>
      { chunkId := chunk.id, errors := parseAnalysisResult out chunk,
        processingTime := elapsed + dur attempt }
    | .error _ =>
      { chunkId := chunk.id, errors := [], processingTime := elapsed + dur attempt }
  | r + 1, attempt, elapsed =>
    match attemptFn attempt with
    | .ok out =>
      { chunkId := chunk.id, errors := parseAnalysisResult out chunk,
        processingTime := elapsed + dur attempt }
    | .error _ =>
      retryGo retryDelay chunk attemptFn dur r
        (attempt + 1) (elapsed + dur attempt + retryDelay * (attempt + 1))

/-- `ChunkProcessor.processChunkWithRetry`, parameterized by the retry count
and delay (the source reads `CHUNK_PROCESSING.RETRY_ATTEMPTS = 2` and
`RETRY_DELAY = 1000`; `processChunks` below instantiates them). -/
def processChunkWithRetry (retryAttempts retryDelay : Nat) (chunk : TextChunk)
    (attemptFn : Nat → Except JSError AIOutput) (dur : Nat → Nat) : ChunkResult :=
  retryGo retryDelay chunk attemptFn dur retryAttempts 0 0

/-- The batch loop of `processChunks` (lines 103-139).  `sig batchIdx` is the
state of `abortController.signal.aborted` when the batch with index `batchIdx`
is about to start; when it is set, the source throws `'Processing aborted'`.
`processChunkWithRetry` never rejects (every failure is caught inside it), so
the `Promise.all` catch branch of the source is unreachable and each batch is
the map of `processChunkWithRetry` over its chunks. -/
def processChunksGo (F : TextChunk → Nat → Except JSError AIOutput)
    (D : TextChunk → Nat → Nat) (sig : Nat → Bool) :
    List TextChunk → Nat → List ChunkResult → Except String (List ChunkResult)
  | [], _, acc => .ok acc
  | a :: rest, batchIdx, acc =>
    if sig batchIdx then .error "Processing aborted"
    else
      match rest with
      | [] => .ok (acc ++
          [processChunkWithRetry RETRY_ATTEMPTS RETRY_DELAY a (F a) (D a)])
      | b :: rest2 =>
        match rest2 with
        | [] => .ok (acc ++
            [processChunkWithRetry RETRY_ATTEMPTS RETRY_DELAY a (F a) (D a),
             processChunkWithRetry RETRY_ATTEMPTS RETRY_DELAY b (F b) (D b)])
        | c :: rest3 =>
          processChunksGo F D sig rest3 (batchIdx + 1) (acc ++
            [processChunkWithRetry RETRY_ATTEMPTS RETRY_DELAY a (F a) (D a),
             processChunkWithRetry RETRY_ATTEMPTS RETRY_DELAY b (F b) (D b),
             processChunkWithRetry RETRY_ATTEMPTS RETRY_DELAY c (F c) (D c)])

/-- `ChunkProcessor.processChunks`: batches of `BATCH_SIZE` chunks, abort check
before each batch, results accumulated in order.  (`onProgress` and the fixed
500 ms inter-batch delay have no effect on the returned value and are
omitted.) -/
def processChunks (F : TextChunk → Nat → Except JSError AIOutput)
    (D : TextChunk → Nat → Nat) (sig : Nat → Bool) (chunks : List TextChunk) :
    Except String (List ChunkResult) :=
  processChunksGo F D sig chunks 0 []

/-- Number of batch iterations `processChunks` performs on a list of `n`
chunks. -/
def numBatches (n : Nat) : Nat := (n + BATCH_SIZE - 1) / BATCH_SIZE

/-! ## Result Merger: `ChunkProcessor.mergeResults` (lines 299-319) -/

/-- The dedup key `type:original:suggestion` (line 306). -/
def errorKey (e : TypoError) : String :=
  e.type ++ ":" ++ e.original ++ ":" ++ e.suggestion

/-- The `seenErrors` pass (lines 303-312): first occurrence wins. -/
def dedupeErrors : List TypoError → List String → List TypoError
  | [], _ => []
  | e :: rest, seen =>
    if seen.contains (errorKey e) then dedupeErrors rest seen
    else e :: dedupeErrors rest (errorKey e :: seen)

/-- `severityOrder = \x7b error: 0, warning: 1, info: 2 \x7d` as a lookup
(line 316). -/
def severityOrderLookup (s : String) : Option Nat :=
  if s = "error" then some 0
  else if s = "warning" then some 1
  else if s = "info" then some 2
  else none

/-- The comparator key `severityOrder[a.severity] || 1` (line 317): a JavaScript
`||` whose left side can be the falsy number `0`. -/
def severityRank (e : TypoError) : Nat :=
  jsOrNat (severityOrderLookup e.severity) 1

/-- Stable insertion: the new element goes after every element of rank `≤` its
own, modelling the stable `Array.prototype.sort` (ES2019) with comparator
`(a, b) => rank a - rank b`. -/
def insertByRank (r : TypoError) : List TypoError → List TypoError
  | [] => [r]
  | x :: xs => if severityRank x ≤ severityRank r then x :: insertByRank r xs
               else r :: x :: xs

/-- The final `sort` of `mergeResults` (lines 315-318) as a stable sort. -/
def sortBySeverity (l : List TypoError) : List TypoError :=
  l.foldl (fun acc e => insertByRank e acc) []

/-- `ChunkProcessor.mergeResults`: flatten, dedupe (first wins), then sort by
the comparator key. -/
def mergeResults (results : List ChunkResult) : List TypoError :=
  sortBySeverity (dedupeErrors (results.foldl (fun acc r => acc ++ r.errors) []) [])

/-! ## Orchestrator: `AIManager` (src/background/ai/ai-manager.ts)

A provider is modelled by its observable behaviour for one request: its name,
the outcome of `analyzeContent` and its `getTokenInfo()`. -/

/-- `TokenInfo` from ai-provider.ts. -/
structure TokenInfo where
  used : Nat
  quota : Nat
  remaining : Nat
deriving DecidableEq, Repr

instance {ε α : Type} [DecidableEq ε] [DecidableEq α] : DecidableEq (Except ε α)
  | .ok a, .ok b =>
    if h : a = b then .isTrue (by rw [h])
    else .isFalse (by intro hh; injection hh; contradiction)
  | .ok _, .error _ => .isFalse (by intro h; cases h)
  | .error _, .ok _ => .isFalse (by intro h; cases h)
  | .error a, .error b =>
    if h : a = b then .isTrue (by rw [h])
    else .isFalse (by intro hh; injection hh; contradiction)

/-- The behaviour of one provider for the request under consideration. -/
structure ProviderModel where
  name : String
  analyzeResult : Except JSError String
  tokenInfo : Option TokenInfo := none
deriving DecidableEq, Repr

/-- The result object returned by `AIManager.analyzeContent` (ai-manager.ts
lines 202-206). -/
structure AIAnalysisResult where
  result : String
  provider : String
  tokenInfo : Option TokenInfo := none
deriving DecidableEq, Repr

namespace AIManager

/-- The state of an initialized `AIManager`: the primary provider, the optional
Chrome-Nano fallback, and `settings.fallbackToChromeNano`. -/
structure State where
  currentProvider : ProviderModel
  fallbackProvider : Option ProviderModel := none
  fallbackToChromeNano : Bool
deriving DecidableEq, Repr

/-- `AIManager.shouldFallback` (ai-manager.ts lines 542-564): a coded error
object falls back on the four listed codes; an `Error` instance falls back
when its message mentions fetch/network/timeout; anything else does not. -/
def shouldFallback : JSError → Bool
  | .coded code _ _ =>
    ["REQUEST_FAILED", "GEMINI_API_ERROR_429", "GEMINI_API_ERROR_503",
     "GEMINI_API_ERROR_500"].contains code
  | .exn msg =>
    jsIncludes msg "fetch" || jsIncludes msg "network" || jsIncludes msg "timeout"

/-- `error instanceof Error ? error.message : d` (ai-manager.ts lines 567-568):
only `Error` instances contribute their message; coded plain objects yield the
placeholder. -/
def errMessageOr (e : JSError) (d : String) : String :=
  match e with
  | .exn m => m
  | .coded _ _ _ => d

/-- `AIManager.createCombinedError` (ai-manager.ts lines 566-571). -/
def createCombinedError (primaryError fallbackError : JSError) : JSError :=
  .exn ("Both AI providers failed. Primary: "
    ++ errMessageOr primaryError "Primary provider failed"
    ++ ". Fallback: "
    ++ errMessageOr fallbackError "Fallback provider failed")

/-- `AIManager.analyzeContent` (ai-manager.ts lines 233-303): call the primary;
on failure, if the error is fallback-eligible and a fallback exists and
fallback is enabled, retry the whole request on the fallback (marking the
provider name), combining the two errors if the fallback also fails; otherwise
rethrow the primary's error. -/
def analyzeContent (m : State) : Except JSError AIAnalysisResult :=
  match m.currentProvider.analyzeResult with
  | .ok result =>
    .ok { result := result, provider := m.currentProvider.name,
          tokenInfo := m.currentProvider.tokenInfo }
  | .error e =>
    match m.fallbackProvider with
    | some fb =>
      if shouldFallback e && m.fallbackToChromeNano then
        match fb.analyzeResult with
        | .ok fallbackResult =>
          .ok { result := fallbackResult, provider := fb.name ++ " (fallback)",
                tokenInfo := fb.tokenInfo }
        | .error fallbackError => .error (createCombinedError e fallbackError)
      else .error e
    | none => .error e

end AIManager

/-! ## Remote provider File-API path: `GeminiProvider`
(src/background/ai/gemini-provider.ts)

The Gemini backend (`ai.files.upload` / `ai.files.get` / `generateContent` /
`ai.files.delete`) is an oracle; `analyzeWithFileAPI` is embedded as a pure
function from that oracle to its outcome together with the trace of backend
calls it makes.  Real time in `waitForFileActive` is discretized by its own
1-second sleeps: poll `i` happens 1000·i virtual ms after the start. -/

namespace GeminiProvider

/-- A file's processing state as reported by `ai.files.get`. -/
inductive FileState where
  | active
  | failed
  | processing
deriving DecidableEq, Repr

/-- The file object returned by `ai.files.upload`. -/
structure UploadedFile where
  name : Option String := none
  uri : Option String := none
deriving DecidableEq, Repr

/-- The generation response: `response.text` and the first candidate's
`finishReason` (`none` also covers an absent candidates array). -/
structure GenResponse where
  text : Option String := none
  finishReason : Option String := none
deriving DecidableEq, Repr

/-- The backend oracle: the upload outcome, the result of the `i`-th
`ai.files.get` poll (`.error ()` = the call threw), and the generation
outcome. -/
structure FileBackend where
  uploadResult : Except JSError UploadedFile
  fileGet : Nat → Except Unit FileState
  generateResult : Except JSError GenResponse

/-- One backend call, for the trace. -/
inductive FEvent where
  | upload
  | poll (i : Nat)
  | generate
  | delete (name : String)
deriving DecidableEq, Repr

/-- `GeminiProvider.shouldUseFileAPI` (gemini-provider.ts lines 157-159):
`contentSize > 100_000` where `contentSize = new Blob([content]).size`. -/
def shouldUseFileAPI (contentSize : Nat) : Bool :=
  contentSize > 100000

/-- The `FILE_WAIT_TIMEOUT` error thrown when the poll loop runs out of time
(lines 346-350). -/
def fileWaitTimeoutErr : JSError :=
  .coded "FILE_WAIT_TIMEOUT" "ファイルの準備待ちタイムアウトしました"
    (some "Waited 30000ms for file to become active")

/-- The poll loop of `waitForFileActive` (lines 311-351) with
`maxWaitTime = 30000` and 1000 ms sleeps: poll `i` runs iff `1000·i < 30000`,
i.e. while `remaining = 30 - i` is positive.  A `FAILED` state throws
`FILE_PROCESSING_FAILED` inside the `try`, and a throwing `ai.files.get` is
also caught there; in both cases the `elapsed > maxWaitTime - 1000` re-throw
guard is false for every reachable poll index `i ≤ 29` (1000·i ≤ 29000), so
the loop sleeps and retries.  Leaving the loop throws `FILE_WAIT_TIMEOUT`. -/
def waitGo (get : Nat → Except Unit FileState) :
    Nat → Nat → Except JSError Unit × List FEvent
  | 0, _ => (.error fileWaitTimeoutErr, [])
  | r + 1, i =>
    match get i with
    | .ok .active => (.ok (), [.poll i])
    | .ok .failed =>
      let res := waitGo get r (i + 1)
      (res.1, .poll i :: res.2)
    | .ok .processing =>
      let res := waitGo get r (i + 1)
      (res.1, .poll i :: res.2)
    | .error _ =>
      let res := waitGo get r (i + 1)
      (res.1, .poll i :: res.2)

/-- `GeminiProvider.waitForFileActive` (lines 311-351): up to 30 polls, one
per second of the 30000 ms budget. -/
def waitForFileActive (get : Nat → Except Unit FileState) :
    Except JSError Unit × List FEvent :=
  waitGo get 30 0

/-- The post-generation result handling of `analyzeWithFileAPI`
(lines 263-299): an empty `response.text` becomes `TOKEN_LIMIT_EXCEEDED` on
`finishReason = MAX_TOKENS`, `GENERATION_FAILED` on any other non-`STOP`
finish reason, and `EMPTY_RESPONSE` otherwise. -/
def handleGenResponse (resp : GenResponse) (contentSize : Nat) : Except JSError String :=
  let empty := match resp.text with
    | none => true
    | some s => (jsTrim s).toList.length = 0
  if empty then
    match resp.finishReason with
    | some fr =>
      if fr = "MAX_TOKENS" then
        .error (.coded "TOKEN_LIMIT_EXCEEDED"
          "コンテンツが大きすぎてGeminiAPIのトークン制限に達しました。"
          (some ("MAX_TOKENS reached with " ++ toString contentSize ++ " bytes content")))
      else if fr ≠ "STOP" then
        .error (.coded "GENERATION_FAILED"
          ("レスポンス生成が異常終了しました: " ++ fr)
          (some ("Finish reason: " ++ fr)))
      else
        .error (.coded "EMPTY_RESPONSE" "Empty response from Gemini File API" none)
    | none =>
      .error (.coded "EMPTY_RESPONSE" "Empty response from Gemini File API" none)
  else .ok (resp.text.getD "")

/-- The body of the `try` of `analyzeWithFileAPI` (lines 216-299): check
`file.name`, wait until active, check `file.uri`, generate, post-process. -/
def fileAPIBody (b : FileBackend) (file : UploadedFile) (contentSize : Nat) :
    Except JSError String × List FEvent :=
  match file.name with
  | none => (.error (.coded "FILE_UPLOAD_ERROR"
      "ファイルアップロード後にファイル名が取得できませんでした" (some "")), [])
  | some _ =>
    match waitForFileActive b.fileGet with
    | (.error e, tr) => (.error e, tr)
    | (.ok _, tr) =>
      match file.uri with
      | none => (.error (.coded "FILE_UPLOAD_ERROR"
          "ファイルアップロード後にファイルURIが取得できませんでした" (some "")), tr)
      | some _ =>
        match b.generateResult with
        | .error e => (.error e, tr ++ [.generate])
        | .ok resp => (handleGenResponse resp contentSize, tr ++ [.generate])

/-- `GeminiProvider.analyzeWithFileAPI` (lines 201-309): upload, then the
`try` body, then the `finally` block which deletes the uploaded file whenever
it has a name (delete errors are swallowed, so the delete call itself cannot
change the outcome). -/
def analyzeWithFileAPI (b : FileBackend) (contentSize : Nat) :
    Except JSError String × List FEvent :=
  match b.uploadResult with
  | .error e => (.error e, [.upload])
  | .ok file =>
    let body := fileAPIBody b file contentSize
    let delTrace : List FEvent := match file.name with
      | some n => [.delete n]
      | none => []
    (body.1, .upload :: body.2 ++ delTrace)

end GeminiProvider

/-! ## Streaming completion heuristic: `AISessionManager.isResponseComplete`
(src/background/ai-session.ts lines 263-274)

`analyzeTextStreaming` (lines 113-167) passes each *cumulative* stream chunk
to this predicate and stops streaming on the first `true`. -/

/-- Balanced brace/bracket nesting over `\x7b \x7d [ ]`, with an explicit
stack (used only by the spec-side completion criterion below). -/
def bracketsBalancedFrom : List Char → List Char → Bool
  | [], stack => stack.isEmpty
  | c :: rest, stack =>
    if c = '\x7b' then bracketsBalancedFrom rest (c :: stack)
    else if c = '[' then bracketsBalancedFrom rest (c :: stack)
    else if c = '\x7d' then
      match stack with
      | '\x7b' :: st => bracketsBalancedFrom rest st
      | _ => false
    else if c = ']' then
      match stack with
      | '[' :: st => bracketsBalancedFrom rest st
      | _ => false
    else bracketsBalancedFrom rest stack

namespace AISessionManager

/-- `AISessionManager.isResponseComplete`: the trimmed accumulated text is
longer than 10 UTF-16 units and matches one of the Japanese completion
patterns. -/
def isResponseComplete (text : String) : Bool :=
  let trimmed := jsTrim text
  decide (trimmed.toList.length > 10)
  && (jsIncludes trimmed "問題ありません"
      || jsIncludes trimmed "修正案："
      || jsEndsWith trimmed "。"
      || jsEndsWith trimmed "です"
      || jsEndsWith trimmed "ます")

/-- Modelled from the spec: the completion criterion the specification
describes — "the accumulated text's brace/bracket nesting is balanced,
contains a required sentinel substring (the expected structured-output
marker), and the trimmed text ends at a closing brace".  The sentinel is the
`"errors"` key that marks the expected structured output.  This definition
follows the spec's words, to be compared with `isResponseComplete` above. -/
def specBraceHeuristic (text : String) : Bool :=
  bracketsBalancedFrom text.toList []
  && jsIncludes text "\"errors\""
  && jsEndsWith (jsTrim text) "\x7d"

end AISessionManager

/-- The virtual time at which the attempt loop gives up when every attempt
fails: each attempt contributes its duration, and each non-final attempt is
followed by the `retryDelay * (attempt + 1)` backoff await. -/
def exhaustTime (retryDelay : Nat) (dur : Nat → Nat) : Nat → Nat → Nat → Nat
  | 0, attempt, elapsed => elapsed + dur attempt
  | r + 1, attempt, elapsed =>
    exhaustTime retryDelay dur r (attempt + 1)
      (elapsed + dur attempt + retryDelay * (attempt + 1))

/-- The completion criterion of `isResponseComplete`, stated as a proposition:
the trimmed accumulated text is longer than 10 units and contains
`問題ありません` or `修正案：` or ends with `。`, `です` or `ます`.  This is the
amended form of the spec's completion-heuristic sentence. -/
def completionCriterion (text : String) : Prop :=
  10 < (jsTrim text).toList.length ∧
    (jsIncludes (jsTrim text) "問題ありません" = true ∨
     jsIncludes (jsTrim text) "修正案：" = true ∨
     jsEndsWith (jsTrim text) "。" = true ∨
     jsEndsWith (jsTrim text) "です" = true ∨
     jsEndsWith (jsTrim text) "ます" = true)

/-- The message `createCombinedError` builds when both failures are coded
provider-error objects (not `Error` instances). -/
def bothPlaceholdersMsg : String :=
  "Both AI providers failed. Primary: Primary provider failed. Fallback: Fallback provider failed"

/-! ## Concrete inputs used by the counterexamples and witnesses -/

/-- A primary provider whose `analyzeContent` fails with the fallback-eligible
coded error `REQUEST_FAILED` and message `boom`. -/
def primaryBoom : ProviderModel :=
  { name := "Google Gemini API (gemini-2.5-flash)",
    analyzeResult := .error (.coded "REQUEST_FAILED" "boom" none) }

/-- A fallback provider that also fails, with coded message `bam`. -/
def fallbackBam : ProviderModel :=
  { name := "Chrome Nano", analyzeResult := .error (.coded "SESSION_FAILED" "bam" none) }

/-- A fallback provider that succeeds. -/
def fallbackOk : ProviderModel :=
  { name := "Chrome Nano", analyzeResult := .ok "nano result" }

/-- Orchestrator state for the C1 counterexample: eligible primary failure,
failing fallback, fail-over enabled. -/
def c1BothFailState : AIManager.State :=
  { currentProvider := primaryBoom, fallbackProvider := some fallbackBam,
    fallbackToChromeNano := true }

/-- Orchestrator state for the C1 witness: eligible primary failure,
succeeding fallback, fail-over enabled. -/
def c1FallbackOkState : AIManager.State :=
  { currentProvider := primaryBoom, fallbackProvider := some fallbackOk,
    fallbackToChromeNano := true }

/-- A trivial chunk with the given id (batch-dispatcher inputs do not depend
on the text for the dispatcher claims). -/
def plainChunk (i : Nat) : TextChunk :=
  { id := i, text := [], startIndex := 0, endIndex := 0 }

/-- Four chunks: two batches of sizes 3 and 1. -/
def c3Chunks : List TextChunk :=
  [plainChunk 0, plainChunk 1, plainChunk 2, plainChunk 3]

/-- A cancellation signal observed for the first time before batch 1 starts. -/
def c3Signal (batchIdx : Nat) : Bool := batchIdx = 1

/-- An attempt oracle that always succeeds with an empty-errors JSON body. -/
def alwaysOkJson : TextChunk → Nat → Except JSError AIOutput :=
  fun _ _ => .ok (.json (some []))

/-- A zero-duration clock oracle. -/
def zeroDur : TextChunk → Nat → Nat := fun _ _ => 0

/-- The C4 counterexample input: balanced braces, contains the `"errors"`
sentinel, trimmed text ends at a closing brace. -/
def c4Input : String := "\x7b\"errors\": []\x7d"

/-- A warning-severity record (from the repository's own dummy data shapes). -/
def c5Warning : TypoError :=
  { type := "grammar", severity := "warning", original := "昨日は学校に行きませんでしたでした",
    suggestion := "昨日は学校に行きませんでした", explanation := "", chunkId := 0, position := none }

/-- An error-severity record. -/
def c5Error : TypoError :=
  { type := "typo", severity := "error", original := "これわ間違った文章です",
    suggestion := "これは間違った文章です", explanation := "", chunkId := 0, position := none }

/-- A single `ChunkResult` holding a warning record before an error record. -/
def c5Input : List ChunkResult :=
  [{ chunkId := 0, errors := [c5Warning, c5Error], processingTime := 0 }]

/-- An attempt oracle for one chunk that fails on its first call and succeeds
from the second call on. -/
def failOnceThenOk : Nat → Except JSError AIOutput :=
  fun a => if a < 1 then .error (.exn "attempt failed") else .ok (.json (some []))

/-- An attempt oracle that always fails. -/
def alwaysFail : Nat → Except JSError AIOutput :=
  fun _ => .error (.exn "attempt failed")

/-- The C8 counterexample text: spaces at indices 3 and 11, length 30. -/
def c8Text : List Char := "aaa aaaaaaa aaaaaaaaaaaaaaaaaa".toList

/-- A raw parsed record with a present-but-empty `severity` field. -/
def c10Raw : RawError :=
  { type := some "typo", severity := some "", suggestion := some "修正案",
    original := some "誤り" }

/-- A raw parsed record that passes validation with all fields present. -/
def c10RawFull : RawError :=
  { type := some "grammar", severity := some "info", suggestion := some "s",
    original := some "o", explanation := some "e" }

/-- A raw parsed record that fails validation (type not in the allowed set). -/
def c10RawBad : RawError :=
  { type := some "style", severity := some "error", suggestion := some "s" }

/-- The chunk whose analysis produced the C10 records. -/
def c10Chunk : TextChunk :=
  { id := 7, text := "対象テキスト".toList, startIndex := 40, endIndex := 46 }

/-- A backend for the C9 witness: upload succeeds, the file becomes active on
the third poll, generation succeeds with a nonempty text. -/
def c9Backend : GeminiProvider.FileBackend :=
  { uploadResult := .ok { name := some "files/abc123", uri := some "gs://abc123" },
    fileGet := fun i => if i = 2 then .ok .active else .ok .processing,
    generateResult := .ok { text := some "\x7b\"errors\": []\x7d", finishReason := some "STOP" } }

/-! ## Theorems -/

/-! ### Segmenter lemmas -/

theorem lastIndexOf_lt {text : List Char} {c : Char} {pos i : Nat}
    (h : lastIndexOf text c pos = some i) : i < min (pos + 1) text.length := by
  unfold lastIndexOf at h
  obtain ⟨hne, heq⟩ := List.mem_getLast?_eq_getLast (Option.mem_def.mpr h)
  have hmem := heq ▸ List.getLast_mem hne
  have := (List.mem_filter.mp hmem).1
  exact List.mem_range.mp this

theorem breakCandidate_le (text : List Char) (c : Char) (pos startIndex : Nat)
    (hpos : pos < text.length) :
    breakCandidate text c pos startIndex ≤ (text.length : Int) := by
  unfold breakCandidate
  cases h : lastIndexOf text c pos with
  | none => simp; omega
  | some i =>
    have hi := lastIndexOf_lt h
    by_cases hgt : i > startIndex <;> simp [hgt] <;> omega

/-- The end offset produced by one loop iteration never exceeds the text
length. -/
theorem splitEnd_le (maxChunkSize : Nat) (text : List Char) (startIndex : Nat) :
    splitEnd maxChunkSize text startIndex ≤ text.length := by
  unfold splitEnd
  simp only
  by_cases hlt : min (startIndex + maxChunkSize) text.length < text.length
  · simp only [hlt, if_true]
    have hb1 := breakCandidate_le text '。'
      (min (startIndex + maxChunkSize) text.length) startIndex hlt
    have hb2 := breakCandidate_le text '\n'
      (min (startIndex + maxChunkSize) text.length) startIndex hlt
    have hb3 := breakCandidate_le text ' '
      (min (startIndex + maxChunkSize) text.length) startIndex hlt
    by_cases hgt : max (max (breakCandidate text '。' (min (startIndex + maxChunkSize) text.length) startIndex)
          (breakCandidate text '\n' (min (startIndex + maxChunkSize) text.length) startIndex))
        (breakCandidate text ' ' (min (startIndex + maxChunkSize) text.length) startIndex)
        > (startIndex : Int)
    · simp only [hgt, if_true]
      omega
    · simp only [hgt, if_false]
      omega
  · simp only [hlt, if_false]
    omega

/-- After any iteration whose parameters satisfy `1 ≤ overlap ≤ max < length`,
the next start offset is again strictly inside the text: the loop condition
`startIndex < text.length` can never become false. -/
theorem splitStep_next_lt (maxChunkSize overlapSize : Nat) (text : List Char)
    (startIndex chunkId : Nat) (hov : 1 ≤ overlapSize)
    (hovmax : overlapSize ≤ maxChunkSize) (hlen : maxChunkSize < text.length) :
    (splitStep maxChunkSize overlapSize text startIndex chunkId).2 < text.length := by
  have hend := splitEnd_le maxChunkSize text startIndex
  show splitNextStart overlapSize (splitEnd maxChunkSize text startIndex) < text.length
  unfold splitNextStart
  by_cases hlt2 : splitEnd maxChunkSize text startIndex < overlapSize
  · simp only [hlt2, if_true]
    omega
  · simp only [hlt2, if_false]
    omega

/-- With `1 ≤ overlap ≤ max < length`, the loop body of `splitIntoChunks`
runs out of any amount of fuel: the `while` loop never terminates. -/
theorem splitGo_none (maxChunkSize overlapSize : Nat) (text : List Char)
    (hov : 1 ≤ overlapSize) (hovmax : overlapSize ≤ maxChunkSize)
    (hlen : maxChunkSize < text.length) :
    ∀ (fuel startIndex chunkId : Nat) (acc : List TextChunk),
      startIndex < text.length →
      splitGo maxChunkSize overlapSize text fuel startIndex chunkId acc = none := by
  intro fuel
  induction fuel with
  | zero => intro _ _ _ _; rfl
  | succ n ih =>
    intro startIndex chunkId acc hstart
    rw [splitGo]
    simp only [hstart, if_true]
    exact ih _ _ _ (splitStep_next_lt maxChunkSize overlapSize text startIndex chunkId
      hov hovmax hlen)

/-- C2: for any text of exactly 45,000 characters with the configured
constants (`maxChunkChars = 20000`, `overlapChars = 500`), `splitIntoChunks`
does not terminate: for every iteration budget the loop is still running.
After emitting the chunks at offsets 0, 19500 and 39000 the loop reaches
`startIndex = 44500`, produces the final window `[44500, 45000)`, and then
resets `startIndex = endIndex - overlapSize = 44500` again, forever — the
spec's claim that it terminates with exactly 3 chunks fails. -/
theorem C2_splitIntoChunks_diverges (text : List Char) (h : text.length = 45000) :
    ∀ fuel, splitIntoChunks fuel text = none := by
  intro fuel
  unfold splitIntoChunks splitParam
  have hgt : ¬ text.length ≤ MAX_CHARS_PER_CHUNK := by
    rw [h]; unfold MAX_CHARS_PER_CHUNK; omega
  simp only [hgt, if_false]
  exact splitGo_none _ _ text (by unfold OVERLAP_CHARS; omega)
    (by unfold OVERLAP_CHARS MAX_CHARS_PER_CHUNK; omega)
    (by unfold MAX_CHARS_PER_CHUNK; omega) fuel 0 0 [] (by omega)

/-- Witness for C2 at the concrete input `'a' * 45000`. -/
theorem C2_witness :
    (List.replicate 45000 'a').length = 45000 ∧
      ∀ fuel, splitIntoChunks fuel (List.replicate 45000 'a') = none :=
  ⟨by rw [List.length_replicate],
   C2_splitIntoChunks_diverges _ (by rw [List.length_replicate])⟩

/-- C8: with `maxChunkChars = 10` and `overlapChars = 9` on the text
`"aaa aaaaaaa" ++ ...` (spaces at indices 3 and 11, length 30), the first three
chunks emitted by the loop start at offsets 0, 4 and 3: the third start
regresses below the second.  The second chunk is `[4, 12)` of length `8 < 9 =
overlapChars`, and instead of clamping the next start to the previous end
offset 12 (the behaviour this claim and the spec mandate), the code computes
`12 - 9 = 3`, which is non-negative and therefore not clamped at all. -/
theorem C8_start_offset_regresses :
    (splitTrace 10 9 c8Text 3).map TextChunk.startIndex = [0, 4, 3] ∧
      ((splitTrace 10 9 c8Text 3).map TextChunk.endIndex = [4, 12, 12]) := by
  constructor <;> decide

/-! ### Completion heuristic (C4) -/

/-- C4 counterexample: on the accumulated text `{"errors": []}` — balanced
brace/bracket nesting, the `"errors"` sentinel present, trimmed text ending at
a closing brace — the code's `isResponseComplete` returns `false`: the claimed
"exactly when" characterization fails at this input.  (Conversely it returns
`true` on brace-free Japanese text such as `これは全く問題ありませんよ`.) -/
theorem C4_counterexample :
    AISessionManager.specBraceHeuristic c4Input = true ∧
      AISessionManager.isResponseComplete c4Input = false ∧
      AISessionManager.isResponseComplete "これは全く問題ありませんよ" = true := by
  refine ⟨?_, ?_, ?_⟩ <;> decide

/-- C4 amended: the completion heuristic declares the response complete
exactly when the trimmed accumulated text is longer than 10 units and either
contains `問題ありません`, contains `修正案：`, or ends with `。`, `です` or
`ます` — a Japanese sentence-shape check, not a brace-balance check. -/
theorem C4_completion_characterized (text : String) :
    AISessionManager.isResponseComplete text = true ↔ completionCriterion text := by
  unfold AISessionManager.isResponseComplete completionCriterion
  simp only [Bool.and_eq_true, Bool.or_eq_true, decide_eq_true_eq]
  tauto

/-! ### Result merger (C5) -/

/-- C5: `mergeResults` on a single chunk result holding a `warning` record
followed by an `error` record returns them in that same order: the `error`
record appears *after* the `warning` record.  The comparator key
`severityOrder[a.severity] || 1` evaluates to `1` for `severity = 'error'`
because the looked-up rank `0` is falsy in JavaScript, so `error` ties with
`warning` and the stable sort keeps the input order, contradicting the claimed
`error(0) < warning(1) < info(2)` ordering. -/
theorem C5_error_sorts_after_warning :
    mergeResults c5Input = [c5Warning, c5Error] ∧
      c5Warning.severity = "warning" ∧ c5Error.severity = "error" ∧
      severityRank c5Error = severityRank c5Warning := by
  refine ⟨?_, rfl, rfl, ?_⟩ <;> decide

/-! ### Batch dispatcher cancellation (C3) -/

theorem numBatches_add_three (n : Nat) : numBatches (n + 3) = 1 + numBatches n := by
  unfold numBatches BATCH_SIZE
  omega

/-- If some batch whose index is reached has the cancellation signal set, the
batch loop throws `Processing aborted`. -/
theorem processChunksGo_abort (F : TextChunk → Nat → Except JSError AIOutput)
    (D : TextChunk → Nat → Nat) (sig : Nat → Bool) :
    ∀ (n : Nat) (l : List TextChunk), l.length ≤ n →
      ∀ (batchIdx : Nat) (acc : List ChunkResult),
      (∃ j, batchIdx ≤ j ∧ j < batchIdx + numBatches l.length ∧ sig j = true) →
      processChunksGo F D sig l batchIdx acc = .error "Processing aborted" := by
  intro n
  induction n with
  | zero =>
    intro l hl batchIdx acc h
    obtain ⟨j, hj1, hj2, _⟩ := h
    have h0 : l.length = 0 := by omega
    rw [h0] at hj2
    unfold numBatches BATCH_SIZE at hj2
    omega
  | succ n ih =>
    intro l hl batchIdx acc h
    obtain ⟨j, hj1, hj2, hj3⟩ := h
    match l with
    | [] =>
      unfold numBatches BATCH_SIZE at hj2
      simp at hj2
      omega
    | [a] =>
      have hj : j = batchIdx := by
        simp only [List.length_cons, List.length_nil] at hj2
        unfold numBatches BATCH_SIZE at hj2
        omega
      rw [processChunksGo]
      simp [hj ▸ hj3]
    | [a, b] =>
      have hj : j = batchIdx := by
        simp only [List.length_cons, List.length_nil] at hj2
        unfold numBatches BATCH_SIZE at hj2
        omega
      rw [processChunksGo]
      simp [hj ▸ hj3]
    | a :: b :: c :: rest3 =>
      rw [processChunksGo]
      by_cases hs : sig batchIdx
      · simp [hs]
      · simp only [hs, Bool.false_eq_true, if_false]
        apply ih rest3 (by simp at hl ⊢; omega) (batchIdx + 1)
        refine ⟨j, ?_, ?_, hj3⟩
        · rcases Nat.eq_or_lt_of_le hj1 with heq | hlt
          · exfalso; rw [← heq] at hj3; rw [hj3] at hs; exact hs rfl
          · omega
        · have hlen : (a :: b :: c :: rest3).length = rest3.length + 3 := by
            simp
          rw [hlen, numBatches_add_three] at hj2
          omega

/-- C3 counterexample: four trivial chunks, an analyze oracle that always
succeeds, and a cancellation signal first observed before batch 1: the source
throws `Processing aborted` (modelled as `Except.error`) instead of returning
the three `ChunkResult`s accumulated by batch 0 — the claim's
"returns (without throwing) the accumulated results" fails. -/
theorem C3_counterexample :
    processChunks alwaysOkJson zeroDur c3Signal c3Chunks =
      .error "Processing aborted" := by
  decide

/-- C3 amended: for every chunk list, if the cancellation signal is observed
before any batch that is reached starts, `processChunks` throws
`Processing aborted` (an exception, discarding all accumulated results)
rather than returning a partial result list. -/
theorem C3_abort_throws (F : TextChunk → Nat → Except JSError AIOutput)
    (D : TextChunk → Nat → Nat) (sig : Nat → Bool) (chunks : List TextChunk)
    (h : ∃ j, j < numBatches chunks.length ∧ sig j = true) :
    processChunks F D sig chunks = .error "Processing aborted" := by
  unfold processChunks
  apply processChunksGo_abort F D sig chunks.length chunks (le_refl _) 0 []
  obtain ⟨j, hj1, hj2⟩ := h
  exact ⟨j, by omega, by omega, hj2⟩

/-- Witness for C3 at a concrete input: the signal set from the very first
batch check. -/
theorem C3_witness :
    processChunks alwaysOkJson zeroDur (fun j => decide (j = 0)) c3Chunks =
      .error "Processing aborted" :=
  C3_abort_throws _ _ _ _ ⟨0, by decide, by decide⟩

/-! ### Orchestrator fail-over (C1) -/

/-- C1 counterexample: primary fails with the eligible coded error
`\x7bcode: REQUEST_FAILED, message: boom\x7d` and the enabled fallback fails
with message `bam`; the combined error's message contains neither `boom` nor
`bam` — coded provider-error objects are not `Error` instances, so
`createCombinedError` substitutes generic placeholders for their messages,
and the claimed "combined error referencing both failure messages" fails. -/
theorem C1_combined_error_drops_messages :
    AIManager.analyzeContent c1BothFailState = .error (.exn bothPlaceholdersMsg) ∧
      jsIncludes bothPlaceholdersMsg "boom" = false ∧
      jsIncludes bothPlaceholdersMsg "bam" = false := by
  refine ⟨?_, ?_, ?_⟩ <;> decide

/-- C1 amended: when the primary's `analyzeContent` fails with a
fallback-eligible error and an (initialized) fallback provider exists and
fallback is enabled in the settings, the request is retried in full on the
fallback: a fallback success is returned with the provider name marked
`(fallback)`; a fallback failure raises the single combined
`Both AI providers failed` error, whose text quotes an underlying message only
when that failure is an `Error` instance and otherwise a generic placeholder.
With fallback disabled, or a non-eligible error, the primary's error is
rethrown unchanged. -/
theorem C1_failover (m : AIManager.State) (e : JSError)
    (hprim : m.currentProvider.analyzeResult = .error e) :
    (∀ fb, m.fallbackProvider = some fb → AIManager.shouldFallback e = true →
        m.fallbackToChromeNano = true →
      (∀ r, fb.analyzeResult = .ok r →
        AIManager.analyzeContent m =
          .ok { result := r, provider := fb.name ++ " (fallback)",
                tokenInfo := fb.tokenInfo }) ∧
      (∀ e2, fb.analyzeResult = .error e2 →
        AIManager.analyzeContent m =
          .error (AIManager.createCombinedError e e2))) ∧
    (m.fallbackToChromeNano = false → AIManager.analyzeContent m = .error e) ∧
    (AIManager.shouldFallback e = false → AIManager.analyzeContent m = .error e) := by
  unfold AIManager.analyzeContent
  rw [hprim]
  refine ⟨?_, ?_, ?_⟩
  · intro fb hfb hsf hen
    rw [hfb]
    simp only [hsf, hen, Bool.and_self, if_true]
    constructor
    · intro r hr; rw [hr]
    · intro e2 he2; rw [he2]
  · intro hdis
    cases hfb : m.fallbackProvider with
    | none => rfl
    | some fb => simp only [hdis, Bool.and_false, Bool.false_eq_true, if_false]
  · intro hsf
    cases hfb : m.fallbackProvider with
    | none => rfl
    | some fb => simp only [hsf, Bool.false_and, Bool.false_eq_true, if_false]

/-- Witness for C1 at a concrete state: eligible primary failure, succeeding
fallback, fail-over enabled — the caller receives the fallback's result with
the provider name marked as fallback. -/
theorem C1_witness :
    AIManager.analyzeContent c1FallbackOkState =
      .ok { result := "nano result", provider := "Chrome Nano (fallback)",
            tokenInfo := none } := by
  have h := C1_failover c1FallbackOkState (.coded "REQUEST_FAILED" "boom" none) rfl
  have h2 := (h.1 fallbackOk rfl (by decide) rfl).1 "nano result" rfl
  rw [h2]
  rfl

/-! ### Batch dispatcher retry and degradation (C6, C7) -/

/-- If every attempt before `N` fails and attempt `N` succeeds with `out`,
then as long as at least `N - attempt` retries remain, the loop returns the
parse of `out`. -/
theorem retryGo_success_fields (d : Nat) (chunk : TextChunk)
    (attemptFn : Nat → Except JSError AIOutput) (dur : Nat → Nat) (N : Nat)
    (out : AIOutput) (hfail : ∀ a, a < N → ∃ err, attemptFn a = .error err)
    (hsucc : attemptFn N = .ok out) :
    ∀ (k remaining attempt elapsed : Nat), attempt + k = N → k ≤ remaining →
      (retryGo d chunk attemptFn dur remaining attempt elapsed).errors
          = parseAnalysisResult out chunk ∧
      (retryGo d chunk attemptFn dur remaining attempt elapsed).chunkId = chunk.id := by
  intro k
  induction k with
  | zero =>
    intro remaining attempt elapsed hk _
    have hN : attempt = N := by omega
    subst hN
    cases remaining with
    | zero => simp [retryGo, hsucc]
    | succ r => simp [retryGo, hsucc]
  | succ n ih =>
    intro remaining attempt elapsed hk hle
    obtain ⟨err, herr⟩ := hfail attempt (by omega)
    obtain ⟨r, rfl⟩ : ∃ r, remaining = r + 1 := ⟨remaining - 1, by omega⟩
    rw [retryGo]
    simp only [herr]
    exact ih r (attempt + 1) _ (by omega) (by omega)

/-- If every attempt the loop can reach fails, the loop degrades to the empty
record list, with processing time `exhaustTime`. -/
theorem retryGo_exhausted (d : Nat) (chunk : TextChunk)
    (attemptFn : Nat → Except JSError AIOutput) (dur : Nat → Nat) :
    ∀ (remaining attempt elapsed : Nat),
      (∀ a, attempt ≤ a → a ≤ attempt + remaining → ∃ err, attemptFn a = .error err) →
      retryGo d chunk attemptFn dur remaining attempt elapsed =
        { chunkId := chunk.id, errors := [],
          processingTime := exhaustTime d dur remaining attempt elapsed } := by
  intro remaining
  induction remaining with
  | zero =>
    intro attempt elapsed hf
    obtain ⟨err, herr⟩ := hf attempt (le_refl _) (by omega)
    rw [retryGo, exhaustTime]
    simp [herr]
  | succ r ih =>
    intro attempt elapsed hf
    obtain ⟨err, herr⟩ := hf attempt (le_refl _) (by omega)
    rw [retryGo, exhaustTime]
    simp only [herr]
    exact ih (attempt + 1) _ (fun a h1 h2 => hf a (by omega) (by omega))

/-- With no cancellation, the batch loop is the map of `processChunkWithRetry`
over the chunk list: each chunk's result is a function of that chunk and its
own analyze oracle only. -/
theorem processChunksGo_no_abort (F : TextChunk → Nat → Except JSError AIOutput)
    (D : TextChunk → Nat → Nat) :
    ∀ (n : Nat) (l : List TextChunk), l.length ≤ n →
      ∀ (batchIdx : Nat) (acc : List ChunkResult),
      processChunksGo F D (fun _ => false) l batchIdx acc =
        .ok (acc ++ l.map (fun c =>
          processChunkWithRetry RETRY_ATTEMPTS RETRY_DELAY c (F c) (D c))) := by
  intro n
  induction n with
  | zero =>
    intro l hl batchIdx acc
    match l with
    | [] => rw [processChunksGo]; simp
    | _ :: _ => simp at hl
  | succ n ih =>
    intro l hl batchIdx acc
    match l with
    | [] => rw [processChunksGo]; simp
    | [a] => rw [processChunksGo]; simp
    | [a, b] => rw [processChunksGo]; simp
    | a :: b :: c :: rest3 =>
      rw [processChunksGo]
      simp only [Bool.false_eq_true, if_false]
      rw [ih rest3 (by simp at hl ⊢; omega)]
      simp

/-- `processChunks` without cancellation maps each chunk independently. -/
theorem processChunks_no_abort (F : TextChunk → Nat → Except JSError AIOutput)
    (D : TextChunk → Nat → Nat) (chunks : List TextChunk) :
    processChunks F D (fun _ => false) chunks =
      .ok (chunks.map (fun c =>
        processChunkWithRetry RETRY_ATTEMPTS RETRY_DELAY c (F c) (D c))) := by
  unfold processChunks
  rw [processChunksGo_no_abort F D chunks.length chunks (le_refl _) 0 []]
  simp

/-- C6: with an analyze oracle that fails on its first `N` attempts for a
chunk and succeeds thereafter, `retryAttempts ≥ N` yields that chunk's result
with the records parsed from the successful output, while `retryAttempts < N`
yields the empty-degraded result; and without cancellation the dispatcher's
result list is the independent per-chunk map, so no other chunk's processing
or result is affected by this chunk's oracle. -/
theorem C6_retry_dispatch (R N : Nat) (chunk : TextChunk) (out : AIOutput)
    (attemptFn : Nat → Except JSError AIOutput) (dur : Nat → Nat)
    (hfail : ∀ a, a < N → ∃ err, attemptFn a = .error err)
    (hsucc : attemptFn N = .ok out) :
    (N ≤ R →
      (processChunkWithRetry R RETRY_DELAY chunk attemptFn dur).errors
          = parseAnalysisResult out chunk ∧
      (processChunkWithRetry R RETRY_DELAY chunk attemptFn dur).chunkId = chunk.id) ∧
    (R < N →
      (processChunkWithRetry R RETRY_DELAY chunk attemptFn dur).errors = [] ∧
      (processChunkWithRetry R RETRY_DELAY chunk attemptFn dur).chunkId = chunk.id) ∧
    (∀ (F : TextChunk → Nat → Except JSError AIOutput) (D : TextChunk → Nat → Nat)
        (chunks : List TextChunk),
      processChunks F D (fun _ => false) chunks =
        .ok (chunks.map (fun c =>
          processChunkWithRetry RETRY_ATTEMPTS RETRY_DELAY c (F c) (D c)))) := by
  refine ⟨?_, ?_, ?_⟩
  · intro hNR
    exact retryGo_success_fields RETRY_DELAY chunk attemptFn dur N out hfail hsucc
      N R 0 0 (by omega) hNR
  · intro hRN
    rw [show processChunkWithRetry R RETRY_DELAY chunk attemptFn dur
          = retryGo RETRY_DELAY chunk attemptFn dur R 0 0 from rfl]
    rw [retryGo_exhausted RETRY_DELAY chunk attemptFn dur R 0 0
      (fun a h1 h2 => hfail a (by omega))]
    exact ⟨rfl, rfl⟩
  · intro F D chunks
    exact processChunks_no_abort F D chunks

/-- Witness for C6: a two-chunk run where chunk 0's oracle fails once and then
succeeds (`N = 1 ≤ 2 = retryAttempts`). -/
theorem C6_witness :
    (processChunkWithRetry 2 RETRY_DELAY (plainChunk 0) failOnceThenOk (fun _ => 0)).errors
        = parseAnalysisResult (.json (some [])) (plainChunk 0) ∧
      (processChunkWithRetry 2 RETRY_DELAY (plainChunk 0) failOnceThenOk (fun _ => 0)).chunkId
        = (plainChunk 0).id :=
  (C6_retry_dispatch 2 1 (plainChunk 0) (.json (some [])) failOnceThenOk (fun _ => 0)
    (fun a ha => ⟨.exn "attempt failed", by
      unfold failOnceThenOk
      simp only [ha, if_true]⟩)
    (by decide)).1 (by omega)

/-- C7 counterexample: a chunk whose attempts all fail, with zero-duration
attempts: the degraded `ChunkResult` carries `processingTime = 3000`
(the `1000·1 + 1000·2` retry backoff on the virtual clock), not the claimed
zero. -/
theorem C7_counterexample :
    (processChunkWithRetry RETRY_ATTEMPTS RETRY_DELAY (plainChunk 5)
        alwaysFail (fun _ => 0)).processingTime = 3000 ∧
      (processChunkWithRetry RETRY_ATTEMPTS RETRY_DELAY (plainChunk 5)
        alwaysFail (fun _ => 0)).errors = [] := by
  constructor <;> decide

/-- C7 amended: a chunk whose retry attempts are all exhausted degrades to a
`ChunkResult` with an empty record list whose elapsed-time field is the actual
time spent on the attempts — the attempt durations plus the `3000` ms of retry
backoff, hence never zero — and the dispatcher's run continues: without
cancellation the result list is the per-chunk map over all chunks of the run. -/
theorem C7_exhausted_degrades (chunk : TextChunk)
    (attemptFn : Nat → Except JSError AIOutput) (dur : Nat → Nat)
    (hfail : ∀ a, a ≤ 2 → ∃ err, attemptFn a = .error err) :
    processChunkWithRetry RETRY_ATTEMPTS RETRY_DELAY chunk attemptFn dur =
      { chunkId := chunk.id, errors := [],
        processingTime := dur 0 + dur 1 + dur 2 + 3000 } ∧
    (processChunkWithRetry RETRY_ATTEMPTS RETRY_DELAY chunk attemptFn dur).processingTime
        ≠ 0 ∧
    (∀ (F : TextChunk → Nat → Except JSError AIOutput) (D : TextChunk → Nat → Nat)
        (chunks : List TextChunk),
      processChunks F D (fun _ => false) chunks =
        .ok (chunks.map (fun c =>
          processChunkWithRetry RETRY_ATTEMPTS RETRY_DELAY c (F c) (D c)))) := by
  have hmain : processChunkWithRetry RETRY_ATTEMPTS RETRY_DELAY chunk attemptFn dur =
      { chunkId := chunk.id, errors := [],
        processingTime := dur 0 + dur 1 + dur 2 + 3000 } := by
    rw [show processChunkWithRetry RETRY_ATTEMPTS RETRY_DELAY chunk attemptFn dur
          = retryGo 1000 chunk attemptFn dur 2 0 0 from rfl]
    rw [retryGo_exhausted 1000 chunk attemptFn dur 2 0 0
      (fun a h1 h2 => hfail a (by omega))]
    have ht : exhaustTime 1000 dur 2 0 0 = dur 0 + dur 1 + dur 2 + 3000 := by
      show exhaustTime 1000 dur 1 1 (0 + dur 0 + 1000 * 1) = _
      show exhaustTime 1000 dur 0 2 (0 + dur 0 + 1000 * 1 + dur 1 + 1000 * 2) = _
      show 0 + dur 0 + 1000 * 1 + dur 1 + 1000 * 2 + dur 2 = _
      omega
    rw [ht]
  refine ⟨hmain, ?_, ?_⟩
  · rw [hmain]
    simp only
    omega
  · intro F D chunks
    exact processChunks_no_abort F D chunks

/-- Witness for C7 at a concrete chunk and oracle. -/
theorem C7_witness :
    processChunkWithRetry RETRY_ATTEMPTS RETRY_DELAY (plainChunk 9)
        alwaysFail (fun a => a) =
      { chunkId := 9, errors := [], processingTime := 0 + 1 + 2 + 3000 } :=
  (C7_exhausted_degrades (plainChunk 9) alwaysFail (fun a => a)
    (fun _ _ => ⟨.exn "attempt failed", rfl⟩)).1

/-! ### Remote provider File-API path (C9) -/

/-- The poll loop emits only poll events. -/
theorem waitGo_only_polls (get : Nat → Except Unit GeminiProvider.FileState) :
    ∀ (r i : Nat) (e : GeminiProvider.FEvent), e ∈ (GeminiProvider.waitGo get r i).2 →
      ∃ j, e = .poll j := by
  intro r
  induction r with
  | zero => intro i e he; simp [GeminiProvider.waitGo] at he
  | succ n ih =>
    intro i e he
    rw [GeminiProvider.waitGo] at he
    cases hg : get i with
    | ok st =>
      cases st <;> simp only [hg] at he <;>
        first
        | (simp at he; exact ⟨i, he⟩)
        | (simp at he
           rcases he with he | he
           · exact ⟨i, he⟩
           · exact ih (i + 1) e he)
    | error u =>
      simp only [hg] at he
      simp at he
      rcases he with he | he
      · exact ⟨i, he⟩
      · exact ih (i + 1) e he

/-- If the file never reports `ACTIVE` within the poll budget, the poll loop
raises the `FILE_WAIT_TIMEOUT` error. -/
theorem waitGo_timeout (get : Nat → Except Unit GeminiProvider.FileState) :
    ∀ (r i : Nat), (∀ j, i ≤ j → j < i + r → get j ≠ .ok .active) →
      (GeminiProvider.waitGo get r i).1 = .error GeminiProvider.fileWaitTimeoutErr := by
  intro r
  induction r with
  | zero => intro i _; rw [GeminiProvider.waitGo]
  | succ n ih =>
    intro i hno
    rw [GeminiProvider.waitGo]
    cases hg : get i with
    | ok st =>
      cases st with
      | active => exact absurd hg (hno i (le_refl _) (by omega))
      | failed => simp only; exact ih (i + 1) (fun j h1 h2 => hno j (by omega) (by omega))
      | processing => simp only; exact ih (i + 1) (fun j h1 h2 => hno j (by omega) (by omega))
    | error u => simp only; exact ih (i + 1) (fun j h1 h2 => hno j (by omega) (by omega))

/-- If the poll loop succeeds, some poll within the budget reported `ACTIVE`. -/
theorem waitGo_ok_active (get : Nat → Except Unit GeminiProvider.FileState) :
    ∀ (r i : Nat), (GeminiProvider.waitGo get r i).1 = .ok () →
      ∃ j, i ≤ j ∧ j < i + r ∧ get j = .ok .active := by
  intro r
  induction r with
  | zero => intro i h; rw [GeminiProvider.waitGo] at h; cases h
  | succ n ih =>
    intro i h
    rw [GeminiProvider.waitGo] at h
    cases hg : get i with
    | ok st =>
      cases st with
      | active => exact ⟨i, le_refl _, by omega, hg⟩
      | failed =>
        simp only [hg] at h
        obtain ⟨j, h1, h2, h3⟩ := ih (i + 1) h
        exact ⟨j, by omega, by omega, h3⟩
      | processing =>
        simp only [hg] at h
        obtain ⟨j, h1, h2, h3⟩ := ih (i + 1) h
        exact ⟨j, by omega, by omega, h3⟩
    | error u =>
      simp only [hg] at h
      obtain ⟨j, h1, h2, h3⟩ := ih (i + 1) h
      exact ⟨j, by omega, by omega, h3⟩

/-- The poll trace of `waitForFileActive` contains only poll events. -/
theorem waitForFileActive_only_polls (get : Nat → Except Unit GeminiProvider.FileState)
    (e : GeminiProvider.FEvent) (he : e ∈ (GeminiProvider.waitForFileActive get).2) :
    ∃ j, e = .poll j :=
  waitGo_only_polls get 30 0 e he

/-- If the `try` body of `analyzeWithFileAPI` reached the generation call,
`waitForFileActive` succeeded. -/
theorem fileAPIBody_generate_wait_ok (b : GeminiProvider.FileBackend)
    (file : GeminiProvider.UploadedFile) (contentSize : Nat)
    (h : GeminiProvider.FEvent.generate ∈ (GeminiProvider.fileAPIBody b file contentSize).2) :
    (GeminiProvider.waitForFileActive b.fileGet).1 = .ok () := by
  unfold GeminiProvider.fileAPIBody at h
  cases hname : file.name with
  | none => rw [hname] at h; simp at h
  | some n =>
    rw [hname] at h
    cases hwait : GeminiProvider.waitForFileActive b.fileGet with
    | mk w tr =>
      cases w with
      | error e =>
        rw [hwait] at h
        simp only at h
        have h2 : GeminiProvider.FEvent.generate
            ∈ (GeminiProvider.waitForFileActive b.fileGet).2 := by
          rw [hwait]
          exact h
        obtain ⟨j, hj⟩ :=
          waitForFileActive_only_polls b.fileGet GeminiProvider.FEvent.generate h2
        simp at hj
      | ok u => rfl

/-- The full trace of `analyzeWithFileAPI` contains the generation event only
if the upload succeeded and the `try` body generated. -/
theorem analyzeWithFileAPI_generate (b : GeminiProvider.FileBackend) (contentSize : Nat)
    (h : GeminiProvider.FEvent.generate ∈ (GeminiProvider.analyzeWithFileAPI b contentSize).2) :
    ∃ file, b.uploadResult = .ok file ∧
      GeminiProvider.FEvent.generate ∈ (GeminiProvider.fileAPIBody b file contentSize).2 := by
  unfold GeminiProvider.analyzeWithFileAPI at h
  cases hup : b.uploadResult with
  | error e => rw [hup] at h; simp at h
  | ok file =>
    rw [hup] at h
    refine ⟨file, rfl, ?_⟩
    simp only [List.mem_cons, List.mem_append, reduceCtorEq, false_or] at h
    rcases h with h | h
    · exact h
    · exfalso
      revert h
      cases file.name <;> simp

/-- C9: for content over the 100 KB threshold the remote provider takes the
file path, and the file path (i) deletes the uploaded file on every exit path
whenever the upload returned a file name, (ii) issues the generation call only
after some poll within the 30-poll / 30-second budget reported the file
`ACTIVE`, and (iii) if no poll in the budget reports `ACTIVE`, fails with the
`FILE_WAIT_TIMEOUT` error without ever calling generation. -/
theorem C9_fileAPI_lifecycle (contentSize : Nat) (hsize : contentSize > 100000)
    (b : GeminiProvider.FileBackend) :
    GeminiProvider.shouldUseFileAPI contentSize = true ∧
    (∀ file n, b.uploadResult = .ok file → file.name = some n →
      GeminiProvider.FEvent.delete n ∈ (GeminiProvider.analyzeWithFileAPI b contentSize).2) ∧
    (GeminiProvider.FEvent.generate ∈ (GeminiProvider.analyzeWithFileAPI b contentSize).2 →
      ∃ j, j < 30 ∧ b.fileGet j = .ok .active) ∧
    (∀ file, b.uploadResult = .ok file → file.name.isSome →
      (∀ j, j < 30 → b.fileGet j ≠ .ok .active) →
      (GeminiProvider.analyzeWithFileAPI b contentSize).1
          = .error GeminiProvider.fileWaitTimeoutErr ∧
        GeminiProvider.FEvent.generate ∉ (GeminiProvider.analyzeWithFileAPI b contentSize).2) := by
  refine ⟨by simp [GeminiProvider.shouldUseFileAPI]; omega, ?_, ?_, ?_⟩
  · intro file n hup hname
    unfold GeminiProvider.analyzeWithFileAPI
    rw [hup]
    simp only [hname]
    simp
  · intro hgen
    obtain ⟨file, hup, hbody⟩ := analyzeWithFileAPI_generate b contentSize hgen
    have hok := fileAPIBody_generate_wait_ok b file contentSize hbody
    obtain ⟨j, h1, h2, h3⟩ := waitGo_ok_active b.fileGet 30 0 hok
    exact ⟨j, by omega, h3⟩
  · intro file hup hname hno
    have hwait1 : (GeminiProvider.waitForFileActive b.fileGet).1
        = .error GeminiProvider.fileWaitTimeoutErr :=
      waitGo_timeout b.fileGet 30 0 (fun j _ h2 => hno j (by omega))
    obtain ⟨n, hname'⟩ := Option.isSome_iff_exists.mp hname
    have hbody : GeminiProvider.fileAPIBody b file contentSize
        = (.error GeminiProvider.fileWaitTimeoutErr,
           (GeminiProvider.waitForFileActive b.fileGet).2) := by
      unfold GeminiProvider.fileAPIBody
      rw [hname']
      cases hwait : GeminiProvider.waitForFileActive b.fileGet with
      | mk w tr =>
        rw [hwait] at hwait1
        simp only at hwait1
        rw [hwait1]
    constructor
    · unfold GeminiProvider.analyzeWithFileAPI
      rw [hup]
      show (GeminiProvider.fileAPIBody b file contentSize).1
          = Except.error GeminiProvider.fileWaitTimeoutErr
      rw [hbody]
    · intro hgen
      obtain ⟨file2, hup2, hbody2⟩ := analyzeWithFileAPI_generate b contentSize hgen
      rw [hup] at hup2
      injection hup2 with hfe
      subst hfe
      rw [hbody] at hbody2
      obtain ⟨j, hj⟩ := waitForFileActive_only_polls b.fileGet _ hbody2
      cases hj

/-- Witness for C9: content of 100001 bytes, a backend whose file becomes
active on the third poll. -/
theorem C9_witness :
    (100001 > 100000) ∧
      (GeminiProvider.shouldUseFileAPI 100001 = true ∧
        (∀ file n, c9Backend.uploadResult = .ok file → file.name = some n →
          GeminiProvider.FEvent.delete n
            ∈ (GeminiProvider.analyzeWithFileAPI c9Backend 100001).2) ∧
        (GeminiProvider.FEvent.generate
            ∈ (GeminiProvider.analyzeWithFileAPI c9Backend 100001).2 →
          ∃ j, j < 30 ∧ c9Backend.fileGet j = .ok .active) ∧
        (∀ file, c9Backend.uploadResult = .ok file → file.name.isSome →
          (∀ j, j < 30 → c9Backend.fileGet j ≠ .ok .active) →
          (GeminiProvider.analyzeWithFileAPI c9Backend 100001).1
              = .error GeminiProvider.fileWaitTimeoutErr ∧
            GeminiProvider.FEvent.generate
              ∉ (GeminiProvider.analyzeWithFileAPI c9Backend 100001).2)) :=
  ⟨by omega, C9_fileAPI_lifecycle 100001 (by omega) c9Backend⟩

/-! ### Record validation in the dispatcher's parse (C10) -/

/-- C10 counterexample: a parsed record with `type: typo`, a non-empty
suggestion, and a *present but empty* `severity` field: the resulting record's
severity is `warning`, not the parsed value `""` — JavaScript `||` treats the
empty string like an absent field, so the claimed "the parsed value or
'warning' when absent" fails on present-but-empty severities. -/
theorem C10_counterexample :
    (parseAnalysisResult (.json (some [c10Raw])) c10Chunk).map TypoError.severity
        = ["warning"] ∧
      c10Raw.severity = some "" ∧ ("warning" : String) ≠ "" := by
  refine ⟨?_, ?_, ?_⟩ <;> decide

/-- C10 amended: every record placed into a `ChunkResult` by the dispatcher's
successful JSON parse has a type in `typo / grammar / japanese`, a non-empty
suggestion, the id of the producing chunk, and a severity equal to the parsed
value when that is a non-empty string and `warning` when it is absent or
empty; raw entries failing the type or suggestion check are silently dropped
(they contribute nothing to the output). -/
theorem C10_parse_record_invariants (chunk : TextChunk) (errs : List RawError)
    (r : TypoError) (hr : r ∈ parseAnalysisResult (.json (some errs)) chunk) :
    (r.type = "typo" ∨ r.type = "grammar" ∨ r.type = "japanese") ∧
    r.suggestion ≠ "" ∧
    r.chunkId = chunk.id ∧
    (∃ raw ∈ errs, validRaw raw = true ∧ r = toTypoError chunk raw ∧
      r.severity = jsOrStr raw.severity "warning") ∧
    (∀ (bad : RawError) (rest : List RawError), validRaw bad = false →
      parseAnalysisResult (.json (some (bad :: rest))) chunk =
        parseAnalysisResult (.json (some rest)) chunk) := by
  unfold parseAnalysisResult at hr
  obtain ⟨raw, hmem, heq⟩ := List.mem_map.mp hr
  obtain ⟨hin, hval⟩ := List.mem_filter.mp hmem
  subst heq
  have hfields : ∃ t s, raw.type = some t ∧ raw.suggestion = some s ∧
      t ≠ "" ∧ s ≠ "" ∧ (t = "typo" ∨ t = "grammar" ∨ t = "japanese") := by
    unfold validRaw at hval
    cases ht : raw.type with
    | none => rw [ht] at hval; cases hs : raw.suggestion <;> rw [hs] at hval <;> cases hval
    | some t =>
      cases hs : raw.suggestion with
      | none => rw [ht, hs] at hval; cases hval
      | some s =>
        rw [ht, hs] at hval
        simp only [Bool.and_eq_true, decide_eq_true_eq] at hval
        obtain ⟨⟨ht', hs'⟩, hmem'⟩ := hval
        have hmem2 : t ∈ ["typo", "grammar", "japanese"] := by simpa using hmem'
        refine ⟨t, s, rfl, rfl, ht', hs', ?_⟩
        simp only [List.mem_cons, List.not_mem_nil, or_false] at hmem2
        tauto
  obtain ⟨t, s, ht, hs, ht', hs', htmem⟩ := hfields
  refine ⟨?_, ?_, rfl, ⟨raw, hin, hval, rfl, rfl⟩, ?_⟩
  · show (raw.type.getD "" = "typo" ∨ raw.type.getD "" = "grammar" ∨
      raw.type.getD "" = "japanese")
    rw [ht]
    exact htmem
  · show raw.suggestion.getD "" ≠ ""
    rw [hs]
    exact hs'
  · intro bad rest hbad
    unfold parseAnalysisResult
    simp [List.filter_cons, hbad]

/-- Witness for C10 at a concrete parse result: the valid record among
`[c10RawBad, c10RawFull]` satisfies the invariants. -/
theorem C10_witness :
    (toTypoError c10Chunk c10RawFull
        ∈ parseAnalysisResult (.json (some [c10RawBad, c10RawFull])) c10Chunk) ∧
      (toTypoError c10Chunk c10RawFull).chunkId = c10Chunk.id ∧
      (toTypoError c10Chunk c10RawFull).suggestion ≠ "" :=
  ⟨by decide,
   (C10_parse_record_invariants c10Chunk [c10RawBad, c10RawFull] _ (by decide)).2.2.1,
   (C10_parse_record_invariants c10Chunk [c10RawBad, c10RawFull] _ (by decide)).2.1⟩

end TypoChecker

